import Mathlib

/-!
Verification of the `qsv excel` command (src/cmd/excel.rs).

The file shallowly embeds the logic of `run` that the specification talks
about: sheet resolution, the dates-whitelist classifier, cell transcoding
(with the calamine date decoding modelled from the spec, since calamine is
an external collaborator), record assembly and the end-of-run row counter.
Machine integers are modelled as `Nat`/`Int` with explicit wrap-around where
overflow matters; Excel serial values are modelled as exact fractions.
-/

namespace QsvExcel

/-! ## Rust standard-library string/number primitives -/

/-- Model of Rust `str::to_lowercase` restricted to the ASCII range
(`Char.toLower` lowercases exactly the ASCII uppercase letters; all inputs
appearing in the program's defaults and in the spec's examples are ASCII). -/
def lowerStr (s : String) : String :=
  String.mk (s.data.map Char.toLower)

/-- Decimal digit run parser: `some` of the value when the character list
is non-empty and all ASCII digits, `none` otherwise.  This is the shared
digit grammar of Rust's unsigned integer parsers, which reject empty
strings, surrounding whitespace and any non-digit character. -/
def parseNatChars (cs : List Char) : Option Nat :=
  if cs ≠ [] ∧ cs.all Char.isDigit then
    some (cs.foldl (fun n c => n * 10 + (c.toNat - 48)) 0)
  else none

/-- Model of Rust `s.parse::<u16>()` succeeding: an optional leading `+`,
then one or more ASCII digits, and the value fits in 16 bits. -/
def parsesAsU16 (s : String) : Bool :=
  let digits := match s.data with
    | '+' :: rest => rest
    | cs => cs
  match parseNatChars digits with
  | some n => decide (n ≤ 65535)
  | none => false

/-- Model of Rust `s.parse::<i32>()`: optional sign, digits, and the value
within the `i32` range. -/
def parseI32 (s : String) : Option Int :=
  let signDigits : Bool × List Char := match s.data with
    | '-' :: rest => (true, rest)
    | '+' :: rest => (false, rest)
    | cs => (false, cs)
  match parseNatChars signDigits.2 with
  | some n =>
      let v : Int := if signDigits.1 then -(n : Int) else (n : Int)
      if -(2 ^ 31) ≤ v ∧ v ≤ 2 ^ 31 - 1 then some v else none
  | none => none

/-- Model of Rust `str::split(',')`: splitting an empty string yields one
empty piece, and separators at the ends yield empty pieces. -/
def splitOnComma : List Char → List (List Char)
  | [] => [[]]
  | c :: rest =>
      let r := splitOnComma rest
      if c = ',' then [] :: r
      else
        match r with
        | [] => [[c]]
        | g :: gs => (c :: g) :: gs

/-- Whitespace as trimmed by Rust's `str::trim` and the csv crate's record
trimming, restricted to the ASCII whitespace characters that can appear in
this program's data. -/
def isWhitespaceChar (c : Char) : Bool :=
  c == ' ' || c == '\t' || c == '\n' || c == '\r'

/-- Model of Rust `str::trim`: remove leading and trailing whitespace. -/
def trimChars (cs : List Char) : List Char :=
  ((cs.dropWhile isWhitespaceChar).reverse.dropWhile isWhitespaceChar).reverse

/-- String-level trim, used both for whitelist tokens (`s.trim()`) and for
csv `StringRecord::trim`. -/
def trimStr (s : String) : String :=
  String.mk (trimChars s.data)

/-- Model of Rust `usize::abs_diff`. -/
def absDiff (a b : Nat) : Nat :=
  if a ≤ b then b - a else a - b

/-! ## Sheet resolution (excel.rs lines 117–145) -/

/-- Outcome of the sheet-resolution block.  The source never constructs an
error value inside this block; the only non-`ok` outcome is a Rust panic
from indexing `sheet_names` out of bounds.  The `diagnostic` flag records
whether the `debug!` fallback message was emitted. -/
inductive ResolveOutcome where
  | ok (sheetName : String) (diagnostic : Bool)
  | panic
  deriving DecidableEq

/-- Shallow embedding of the `let sheet = if ... }` resolution block
(excel.rs lines 117–145).  `sheet_names[i]` is modelled by `List.get?`,
with `none` mapped to `ResolveOutcome.panic` (Rust index out of bounds). -/
def resolve (flagSheet : String) (sheetNames : List String) : ResolveOutcome :=
  if sheetNames.contains flagSheet then
    ResolveOutcome.ok flagSheet false
  else
    match parseI32 flagSheet with
    | some sheetIndex =>
        if 0 ≤ sheetIndex then
          match sheetNames.get? sheetIndex.toNat with
          | some nm => ResolveOutcome.ok nm false
          | none => ResolveOutcome.panic
        else
          match sheetNames.get? (max 0 (min sheetNames.length
              (absDiff sheetNames.length sheetIndex.natAbs))) with
          | some nm => ResolveOutcome.ok nm false
          | none => ResolveOutcome.panic
    | none =>
        match sheetNames.get? 0 with
        | some nm => ResolveOutcome.ok nm true
        | none => ResolveOutcome.panic

/-! ## Dates-whitelist classification (excel.rs lines 152–171, 184–209) -/

/-- Lexicographic order on character lists, the order `Vec::sort_unstable`
uses on `String` (byte order; these strings are ASCII). -/
def charListLt : List Char → List Char → Bool
  | [], [] => false
  | [], _ :: _ => true
  | _ :: _, [] => false
  | a :: as, b :: bs =>
      decide (a.toNat < b.toNat) || (a == b && charListLt as bs)

/-- Insertion step for the sort model. -/
def insertSorted (x : String) : List String → List String
  | [] => [x]
  | y :: ys =>
      if charListLt y.data x.data then y :: insertSorted x ys
      else x :: y :: ys

/-- Model of `Vec::sort_unstable` on the whitelist (excel.rs line 170): an
insertion sort.  Only the multiset of elements matters for the membership
facts proved below. -/
def sortStrings : List String → List String
  | [] => []
  | x :: xs => insertSorted x (sortStrings xs)

/-- The comma-separated tokens of the lowercased raw whitelist string,
before trimming (the order in which the source inspects them:
`whitelist_lower.split(',')`). -/
def tokensRaw (raw : String) : List String :=
  (splitOnComma (lowerStr raw).data).map String.mk

/-- The trimmed tokens actually stored in `dates_whitelist`
(`s.trim().to_string()`). -/
def tokensTrimmed (raw : String) : List String :=
  (tokensRaw raw).map trimStr

/-- excel.rs lines 157–166: `all_numbers_whitelist` stays true iff every
token (before trimming) parses as a `u16`. -/
def allNumbersWhitelist (raw : String) : Bool :=
  (tokensRaw raw).all parsesAsU16

/-- excel.rs lines 159–171: the stored whitelist, sorted when it is an
all-numbers (column index) whitelist. -/
def datesWhitelist (raw : String) : List String :=
  if allNumbersWhitelist raw then sortStrings (tokensTrimmed raw)
  else tokensTrimmed raw

/-- Does the second character list occur at the head of the first? -/
def leadingRun : List Char → List Char → Bool
  | _, [] => true
  | [], _ :: _ => false
  | a :: as, b :: bs => a == b && leadingRun as bs

/-- Contiguous-substring occurrence test on character lists. -/
def subRun : List Char → List Char → Bool
  | [], pat => pat.isEmpty
  | a :: as, pat => leadingRun (a :: as) pat || subRun as pat

/-- Model of Rust `str::contains(&str)` (excel.rs line 200). -/
def containsPat (hay pat : String) : Bool :=
  subRun hay.data pat.data

/-- Per-column date flag (excel.rs lines 184–209).  In the all-numbers
mode the source runs `binary_search(&col_idx.to_string()).is_ok()` on the
sorted whitelist; `slice::binary_search` on a sorted slice returns `Ok`
exactly when the element is present, so it is modelled as membership in
the sorted list. -/
def dateFlagAt (raw : String) (header : List String) (colIdx : Nat) : Bool :=
  if lowerStr raw == "all" then true
  else if lowerStr raw == "none" then false
  else if allNumbersWhitelist raw then
    (datesWhitelist raw).contains (toString colIdx)
  else
    (datesWhitelist raw).any fun pat =>
      containsPat (lowerStr (header.getD colIdx "")) pat

/-- The whole date-flag vector built from the header row, one flag per
header column. -/
def classify (raw : String) (header : List String) : List Bool :=
  (List.range header.length).map (dateFlagAt raw header)

/-- Predicate following the spec's words, for the refinement comparison in
the whitelist-mode claim: the token is the decimal numeral of a
non-negative integer (of any size). -/
def isNonNegIntString (s : String) : Bool :=
  !s.data.isEmpty && s.data.all Char.isDigit

/-! ## Cell transcoding (excel.rs lines 212–239)

The typed cell values delivered by the workbook reader, and the per-cell
transcoding.  Excel serial values (`f64` in the source) are modelled as
exact fractions: every serial handled by the claims is exactly
representable, and every operation the transcoder performs on one is
exact.  The date decoders `as_date`/`as_datetime` live in the external
calamine crate, so they are modelled from the spec (§4.3): epoch
1899-12-30, integer part to a civil date, fraction × 86400 rounded to
whole seconds. -/

/-- Exact fraction standing in for an `f64` value.  By construction every
value built in this development has a positive denominator. -/
structure Frac where
  num : Int
  den : Int
  deriving DecidableEq

/-- An integral `f64` value. -/
def Frac.ofInt (n : Int) : Frac := ⟨n, 1⟩

/-- Model of Rust `f64::trunc`: integer part, rounding toward zero. -/
def Frac.trunc (f : Frac) : Int := Int.tdiv f.num f.den

/-- Model of Rust `f64::fract` (`self - self.trunc()`). -/
def Frac.fract (f : Frac) : Frac := ⟨f.num - Frac.trunc f * f.den, f.den⟩

/-- Model of the guard `f.fract() > 0.0` (excel.rs line 217). -/
def Frac.fractPos (f : Frac) : Bool :=
  decide (0 < (Frac.fract f).num * (Frac.fract f).den)

/-- Modelled from the spec: the count of days between the spreadsheet
date-system epoch 1899-12-30 and 1970-01-01, the epoch of the day-count
algorithm below. -/
def epochOffsetDays : Int := 25569

/-- Civil (proleptic Gregorian) date — year, month, day — from a count of
days since 1970-01-01, by the standard 400-year-era algorithm. -/
def civilFromDays (z0 : Int) : Int × Nat × Nat :=
  let z := z0 + 719468
  let era : Int := Int.fdiv z 146097
  let doe : Nat := (z - era * 146097).toNat
  let yoe : Nat := (doe - doe / 1460 + doe / 36524 - doe / 146096) / 365
  let y : Int := (yoe : Int) + era * 400
  let doy : Nat := doe - (365 * yoe + yoe / 4 - yoe / 100)
  let mp : Nat := (5 * doy + 2) / 153
  let d : Nat := doy - (153 * mp + 2) / 5 + 1
  let m : Nat := if mp < 10 then mp + 3 else mp - 9
  (if m ≤ 2 then y + 1 else y, m, d)

/-- Two-digit zero-padded decimal rendering. -/
def pad2 (n : Nat) : String :=
  if n < 10 then "0" ++ toString n else toString n

/-- Four-digit zero-padded year rendering. -/
def pad4 (y : Int) : String :=
  if y < 0 then "-" ++ toString y.natAbs
  else if y.toNat < 10 then "000" ++ toString y.toNat
  else if y.toNat < 100 then "00" ++ toString y.toNat
  else if y.toNat < 1000 then "0" ++ toString y.toNat
  else toString y.toNat

/-- Modelled from the spec: the external calendar library represents only
a bounded range of dates ("value out of representable range"); the bound
is modelled as one hundred million days on either side of the Unix epoch,
the order of magnitude of chrono's year limits. -/
def dayRangeOk (days : Int) : Bool :=
  decide (-100000000 ≤ days ∧ days ≤ 100000000)

/-- Modelled from the spec: calamine's `DataType::as_date` — the integer
part of the serial decoded against the 1899-12-30 epoch, rendered as its
display form `YYYY-MM-DD`; `none` when out of the representable range. -/
def asDate (f : Frac) : Option String :=
  let days := Frac.trunc f - epochOffsetDays
  if dayRangeOk days then
    let ymd := civilFromDays days
    some (pad4 ymd.1 ++ "-" ++ pad2 ymd.2.1 ++ "-" ++ pad2 ymd.2.2)
  else none

/-- The whole-second time of day: the spec's "fraction × 86400 seconds,
rounded to whole seconds" (round half up, computed by floor on the doubled
fraction). -/
def Frac.timeSecs (f : Frac) : Nat :=
  let fr := Frac.fract f
  (Int.fdiv (2 * (fr.num * 86400) + fr.den) (2 * fr.den)).toNat

/-- Modelled from the spec: calamine's `DataType::as_datetime` — the date
part as in `asDate`, plus the fractional part converted to a whole-second
time of day (fraction × 86400, rounded), rendered
`YYYY-MM-DD HH:MM:SS`. -/
def asDatetime (f : Frac) : Option String :=
  let days := Frac.trunc f - epochOffsetDays
  if dayRangeOk days then
    let ymd := civilFromDays days
    let secs := Frac.timeSecs f
    some (pad4 ymd.1 ++ "-" ++ pad2 ymd.2.1 ++ "-" ++ pad2 ymd.2.2 ++ " " ++
      pad2 (secs / 3600) ++ ":" ++ pad2 (secs % 3600 / 60) ++ ":" ++
      pad2 (secs % 60))
  else none

/-- Fractional decimal digits of `r / den`, up to `fuel` places (every
fraction in this development terminates well within the bound used). -/
def fracDigitsNat (den : Nat) : Nat → Nat → String
  | 0, _ => ""
  | fuel + 1, r =>
      if r = 0 then ""
      else toString (r * 10 / den) ++ fracDigitsNat den fuel (r * 10 % den)

/-- Model of Rust `f64` display (`f.to_string()` / `format!("{f}")`) on
the exact fractions used here: integral values print with no decimal
point, others print sign, integer part and the terminating decimal
fraction (Rust prints the shortest round-tripping decimal, which is the
exact expansion for these values). -/
def Frac.repr (f : Frac) : String :=
  let n := f.num.natAbs
  let d := f.den.natAbs
  let sign := if f.num * f.den < 0 then "-" else ""
  if n % d = 0 then sign ++ toString (n / d)
  else sign ++ toString (n / d) ++ "." ++ fracDigitsNat d 40 (n % d)

/-- calamine's `DataType` cell variant (the `Error` payload is carried as
its deterministic debug rendering, which is all the source uses). -/
inductive DataType where
  | Empty
  | String (s : String)
  | Float (f : Frac)
  | DateTime (f : Frac)
  | Int (i : Int)
  | Error (e : String)
  | Bool (b : Bool)
  deriving DecidableEq

/-- Shallow embedding of the per-cell `match *cell { ... }` transcoding
(excel.rs lines 212–239). -/
def transcodeCell (cell : DataType) (isDateColumn : Bool) : String :=
  match cell with
  | DataType.Empty => ""
  | DataType.String s => s
  | DataType.Float f | DataType.DateTime f =>
      if isDateColumn then
        if Frac.fractPos f then
          (asDatetime f).getD
            ("ERROR: Cannot convert " ++ Frac.repr f ++ " to datetime")
        else
          (asDate f).getD
            ("ERROR: Cannot convert " ++ Frac.repr f ++ " to date")
      else Frac.repr f
  | DataType.Int i => toString i
  | DataType.Error e => e
  | DataType.Bool b => if b then "true" else "false"

/-! ## Record assembly and the streaming row loop (excel.rs 173–266) -/

/-- Flattening of embedded line breaks (excel.rs lines 244–250): a field
containing `'\n'` has every `'\n'` replaced by one space
(`replace('\n', " ")`); other fields are pushed through untouched. -/
def flattenLF (s : String) : String :=
  if s.data.contains '\n' then
    String.mk (s.data.map fun c => if c == '\n' then ' ' else c)
  else s

/-- The `--trim` record post-processing (excel.rs lines 241–254):
`StringRecord::trim` trims every field, then line breaks are flattened
field by field; without `--trim` the record is written unchanged. -/
def assembleRecord (fields : List String) (doTrim : Bool) : List String :=
  if doTrim then fields.map fun f => flattenLF (trimStr f) else fields

/-- Header-cell name (excel.rs line 182):
`cell.get_string().unwrap_or_default()` — the content of string cells,
`""` for every other cell kind. -/
def headerName (cell : DataType) : String :=
  match cell with
  | DataType.String s => s
  | _ => ""

/-- One data-row record (excel.rs lines 179 and 212–239): each cell is
transcoded against its column's date flag.  The source reads
`date_flag[col_idx]` directly, which can only be evaluated for rows at
most as wide as the header (the only rows the claims quantify over);
such in-range reads are modelled faithfully by the `getD` default. -/
def transcodeRow (flags : List Bool) (row : List DataType) : List String :=
  row.enum.map fun jc => transcodeCell jc.2 (flags.getD jc.1 false)

/-- The full streaming loop (excel.rs lines 177–256): the first row is the
header (its names build the date-flag vector and its own record), every
later row is transcoded against the flags; each record is assembled
(trimmed if requested) and written. -/
def processRows (raw : String) (doTrim : Bool)
    (rows : List (List DataType)) : List (List String) :=
  match rows with
  | [] => []
  | header :: dataRows =>
      let names := header.map headerName
      let flags := classify raw names
      assembleRecord names doTrim ::
        dataRows.map fun row => assembleRecord (transcodeRow flags row) doTrim

/-- `u32` wrap-around, for the row counter (excel.rs line 175). -/
def wrapU32 (n : Nat) : Nat := n % 4294967296

/-- The end-of-run summary's exported-row computation `count - 1` in
wrapping `u32` arithmetic, where `count` was incremented once per written
row (excel.rs lines 255 and 262). -/
def exportedRowCount (rowsWritten : Nat) : Nat :=
  wrapU32 (wrapU32 rowsWritten + 4294967296 - 1)

/-! ## Theorems: helper lemmas, then one theorem per claim of the
specification (with counterexamples and witnesses where needed) -/

/-! Helper lemmas about list lookup. -/

theorem get?_eq_some_getD {α : Type} (l : List α) (i : Nat) (d : α)
    (h : i < l.length) : l.get? i = some (l.getD i d) := by
  induction l generalizing i with
  | nil => simp at h
  | cons a t ih =>
      cases i with
      | zero => rfl
      | succ n => simpa using ih n (by simpa using h)

theorem get?_eq_none_iff {α : Type} (l : List α) (i : Nat) :
    l.get? i = none ↔ l.length ≤ i := by
  induction l generalizing i with
  | nil => simp
  | cons a t ih =>
      cases i with
      | zero => simp
      | succ n => simp [ih n, Nat.succ_le_succ_iff]

/-- The position looked up by the negative-index branch is in range exactly
when the magnitude of the negative index is below twice the sheet count. -/
theorem negIndex_lt_iff (N a : Nat) (ha : 1 ≤ a) (hN : 0 < N) :
    max 0 (min N (absDiff N a)) < N ↔ a < 2 * N := by
  simp only [absDiff]
  split <;> omega

/-- C1 (counterexample): the claim that every branch of sheet resolution
only uses positions inside `[0, N)` when `N > 0` is false: the identifier
`"1"` against a one-sheet workbook takes the non-negative-index branch and
indexes position `1`, which is out of range, so the embedded resolver
panics. -/
theorem resolve_index_in_range_counterexample :
    ¬ (∀ (s : String) (names : List String),
        0 < names.length → resolve s names ≠ ResolveOutcome.panic) :=
  fun h => (h "1" ["a"] (by decide)) (by decide)

/-- C1 (amended): characterization of exactly when sheet resolution uses a
position outside `[0, N)` (modelled as `ResolveOutcome.panic`): this happens
iff the identifier is not an exact sheet name and parses as an integer `k`
with either `k ≥ N` (non-negative branch) or `k < 0` and `|k| ≥ 2·N`
(negative branch).  In every other case, in particular in the exact-match
and fallback branches, the position used is inside `[0, N)`. -/
theorem resolve_panic_iff (s : String) (names : List String)
    (hN : 0 < names.length) :
    resolve s names = ResolveOutcome.panic ↔
      names.contains s = false ∧ ∃ k : Int, parseI32 s = some k ∧
        ((0 ≤ k ∧ names.length ≤ k.toNat) ∨
         (k < 0 ∧ 2 * names.length ≤ k.natAbs)) := by
  unfold resolve
  cases hc : names.contains s with
  | true => simp
  | false =>
    simp only [Bool.false_eq_true, if_false, true_and]
    cases hp : parseI32 s with
    | none =>
      rw [get?_eq_some_getD names 0 "" hN]
      simp
    | some k =>
      simp only [Option.some.injEq, exists_eq_left']
      by_cases h0 : 0 ≤ k
      · rw [if_pos h0]
        cases hg : names.get? k.toNat with
        | some nm =>
          have hlt : k.toNat < names.length := by
            by_contra hge
            rw [(get?_eq_none_iff names k.toNat).mpr (by omega)] at hg
            exact Option.noConfusion hg
          constructor
          · intro h; exact absurd h (by simp)
          · rintro (⟨_, hle⟩ | ⟨hneg, _⟩)
            · exact absurd hle (by omega)
            · exact absurd hneg (by omega)
        | none =>
          have hle := (get?_eq_none_iff names k.toNat).mp hg
          exact ⟨fun _ => Or.inl ⟨h0, hle⟩, fun _ => rfl⟩
      · rw [if_neg h0]
        have ha : 1 ≤ k.natAbs := by omega
        cases hg : names.get? (max 0 (min names.length
            (absDiff names.length k.natAbs))) with
        | some nm =>
          have hlt : max 0 (min names.length (absDiff names.length k.natAbs))
              < names.length := by
            by_contra hge
            rw [(get?_eq_none_iff names _).mpr (by omega)] at hg
            exact Option.noConfusion hg
          have hsmall := (negIndex_lt_iff names.length k.natAbs ha hN).mp hlt
          constructor
          · intro h; exact absurd h (by simp)
          · rintro (⟨hpos, _⟩ | ⟨_, hbig⟩)
            · exact absurd hpos h0
            · exact absurd hbig (by omega)
        | none =>
          have hge := (get?_eq_none_iff names _).mp hg
          have : ¬ (max 0 (min names.length (absDiff names.length k.natAbs))
              < names.length) := by omega
          have hbig : 2 * names.length ≤ k.natAbs := by
            by_contra hs
            exact this ((negIndex_lt_iff names.length k.natAbs ha hN).mpr
              (by omega))
          exact ⟨fun _ => Or.inr ⟨by omega, hbig⟩, fun _ => rfl⟩

/-- Witness for `resolve_panic_iff` at a concrete input: a one-sheet
workbook with identifier `"-2"` (so `|k| = 2 ≥ 2·1`) panics. -/
theorem resolve_panic_iff_witness :
    resolve "-2" ["a"] = ResolveOutcome.panic :=
  (resolve_panic_iff "-2" ["a"] (by decide)).mpr
    ⟨by decide, -2, by decide, Or.inr (by decide)⟩

/-- C2 (counterexample): resolving `str(-4)` against the three-sheet list
`["a", "b", "c"]` yields sheet `"b"` (position `|−4| − 3 = 1`), not the
first sheet `"a"` that the claim says indices more negative than `-N` clamp
to. -/
theorem resolve_negative_clamp_counterexample :
    resolve "-4" ["a", "b", "c"] = ResolveOutcome.ok "b" false ∧ "b" ≠ "a" := by
  constructor
  · decide
  · decide

/-- C2 (amended): for an identifier that parses as `-k` (`k ≥ 1`) and is not
itself a sheet name, resolution returns `names[N - k]` when `k ≤ N`; but for
`N < k < 2·N` it returns `names[k - N]` (not `names[0]`), and for
`k ≥ 2·N` it computes position `N` itself and panics on the out-of-bounds
index (again not `names[0]`). -/
theorem resolve_negative_index (names : List String) (k : Nat) (s : String)
    (hk : 1 ≤ k) (hs : parseI32 s = some (-(k : Int)))
    (hname : names.contains s = false) :
    (k ≤ names.length →
      resolve s names =
        ResolveOutcome.ok (names.getD (names.length - k) "") false) ∧
    (names.length < k → k < 2 * names.length →
      resolve s names =
        ResolveOutcome.ok (names.getD (k - names.length) "") false) ∧
    (2 * names.length ≤ k → resolve s names = ResolveOutcome.panic) := by
  have hneg : ¬ (0 ≤ -(k : Int)) := by omega
  have habs : (-(k : Int)).natAbs = k := by simp
  refine ⟨?_, ?_, ?_⟩
  · intro hkN
    have hidx : max 0 (min names.length (absDiff names.length
        ((-(k : Int)).natAbs))) = names.length - k := by
      simp only [habs, absDiff]; split <;> omega
    unfold resolve
    rw [hname, hs]
    simp only [Bool.false_eq_true, if_false, if_neg hneg, hidx]
    rw [get?_eq_some_getD names (names.length - k) "" (by omega)]
  · intro hNk hk2
    have hidx : max 0 (min names.length (absDiff names.length
        ((-(k : Int)).natAbs))) = k - names.length := by
      simp only [habs, absDiff]; split <;> omega
    unfold resolve
    rw [hname, hs]
    simp only [Bool.false_eq_true, if_false, if_neg hneg, hidx]
    rw [get?_eq_some_getD names (k - names.length) "" (by omega)]
  · intro hk2
    have hidx : max 0 (min names.length (absDiff names.length
        ((-(k : Int)).natAbs))) = names.length := by
      simp only [habs, absDiff]; split <;> omega
    unfold resolve
    rw [hname, hs]
    simp only [Bool.false_eq_true, if_false, if_neg hneg, hidx]
    rw [(get?_eq_none_iff names names.length).mpr (le_refl _)]

/-- Witness for `resolve_negative_index`: `"-2"` against
`["a", "b", "c"]` resolves to `names[3 - 2] = "b"`. -/
theorem resolve_negative_index_witness :
    resolve "-2" ["a", "b", "c"] = ResolveOutcome.ok "b" false :=
  (resolve_negative_index ["a", "b", "c"] 2 "-2" (by decide) (by decide)
    (by decide)).1 (by decide)

/-- C3 (counterexample): for the identifier `"5"` (a non-negative integer
`≥ N`) against the two-sheet list `["a", "b"]`, the resolver panics on the
direct out-of-bounds index instead of producing any explicit error value:
the resolution block of the source has no error return at all. -/
theorem resolve_oob_error_counterexample :
    resolve "5" ["a", "b"] = ResolveOutcome.panic := by decide

/-- C3 (amended): for every identifier that is not an exact sheet name and
parses as a non-negative integer `k` with `k ≥ N`, resolution aborts via
direct out-of-bounds indexing (a panic); no explicit OutOfRange error is
surfaced to the caller. -/
theorem resolve_oob_nonneg_panics (s : String) (names : List String)
    (k : Int) (hname : names.contains s = false) (hs : parseI32 s = some k)
    (h0 : 0 ≤ k) (hN : names.length ≤ k.toNat) :
    resolve s names = ResolveOutcome.panic := by
  unfold resolve
  rw [hname, hs]
  simp only [Bool.false_eq_true, if_false, if_pos h0]
  rw [(get?_eq_none_iff names k.toNat).mpr hN]

/-- Witness for `resolve_oob_nonneg_panics`: identifier `"7"` against a
one-sheet workbook. -/
theorem resolve_oob_nonneg_panics_witness :
    resolve "7" ["a"] = ResolveOutcome.panic :=
  resolve_oob_nonneg_panics "7" ["a"] 7 (by decide) (by decide) (by decide)
    (by decide)

/-- C9 (counterexample): with zero sheets and an identifier that is neither
a sheet name nor a parseable integer, the fallback branch indexes
`names[0]` of an empty list and panics; no explicit EmptyWorkbook error is
produced. -/
theorem resolve_fallback_empty_counterexample :
    resolve "not-a-number" ([] : List String) = ResolveOutcome.panic := by
  decide

/-- C9 (amended): for an identifier that is neither an exact sheet name nor
a parseable integer, resolution falls back to `names[0]` and emits the
fallback diagnostic when `N > 0`; when `N = 0` it panics on the
out-of-bounds index `0` instead of failing with an explicit EmptyWorkbook
error. -/
theorem resolve_fallback (s : String) (names : List String)
    (hname : names.contains s = false) (hs : parseI32 s = none) :
    (0 < names.length →
      resolve s names = ResolveOutcome.ok (names.getD 0 "") true) ∧
    (names.length = 0 → resolve s names = ResolveOutcome.panic) := by
  constructor
  · intro hN
    unfold resolve
    rw [hname, hs]
    simp only [Bool.false_eq_true, if_false]
    rw [get?_eq_some_getD names 0 "" hN]
  · intro hN
    unfold resolve
    rw [hname, hs]
    simp only [Bool.false_eq_true, if_false]
    rw [(get?_eq_none_iff names 0).mpr (by omega)]

/-- Witness for `resolve_fallback`: the unknown identifier `"Sheet99"`
against `["alpha", "beta"]` resolves to the first sheet with the
diagnostic flag set. -/
theorem resolve_fallback_witness :
    resolve "Sheet99" ["alpha", "beta"] = ResolveOutcome.ok "alpha" true :=
  (resolve_fallback "Sheet99" ["alpha", "beta"] (by decide) (by decide)).1
    (by decide)

theorem mem_insertSorted (x a : String) (l : List String) :
    a ∈ insertSorted x l ↔ a = x ∨ a ∈ l := by
  induction l with
  | nil => simp [insertSorted]
  | cons y ys ih =>
      simp only [insertSorted]
      split
      · simp only [List.mem_cons, ih]
        tauto
      · simp [List.mem_cons]

theorem mem_sortStrings (a : String) (l : List String) :
    a ∈ sortStrings l ↔ a ∈ l := by
  induction l with
  | nil => simp [sortStrings]
  | cons x xs ih => simp [sortStrings, mem_insertSorted, ih]

theorem contains_sortStrings (l : List String) (x : String) :
    (sortStrings l).contains x = l.contains x := by
  rw [Bool.eq_iff_iff]
  constructor
  · intro h
    exact List.elem_iff.mpr ((mem_sortStrings x l).mp (List.elem_iff.mp h))
  · intro h
    exact List.elem_iff.mpr ((mem_sortStrings x l).mpr (List.elem_iff.mp h))

/-- C4 (counterexample): the token `"65536"` is the decimal numeral of a
non-negative integer, yet the parser used by the source is `parse::<u16>`,
which rejects it, so the mode selected is PatternSet rather than IndexSet —
and classification then uses substring matching, flagging a header that
merely contains `"65536"` in its text. -/
theorem whitelist_indexset_iff_counterexample :
    isNonNegIntString "65536" = true ∧
    allNumbersWhitelist "65536" = false ∧
    dateFlagAt "65536" ["price65536"] 0 = true := by decide

/-- C4 (amended): for a raw whitelist not lowercasing to `"all"`/`"none"`,
mode IndexSet is selected iff every comma-separated token parses as a
non-negative integer that fits in 16 bits (`u16`, so `≤ 65535`; the parse
is applied to the untrimmed token).  In that mode column `j` is flagged iff
the decimal string of `j` is a member of the token set (membership in the
sorted set agrees with membership in the trimmed token list), so spec
`"0,2"` on a 3-column header yields `[true, false, true]`; if any token
fails the `u16` parse, the mode is PatternSet over the lowercase trimmed
tokens. -/
theorem whitelist_indexset_mode (raw : String) (header : List String)
    (j : Nat) (hall : (lowerStr raw == "all") = false)
    (hnone : (lowerStr raw == "none") = false) :
    (allNumbersWhitelist raw = true ↔
      ∀ t ∈ tokensRaw raw, parsesAsU16 t = true) ∧
    (allNumbersWhitelist raw = true →
      dateFlagAt raw header j = (tokensTrimmed raw).contains (toString j)) ∧
    (allNumbersWhitelist raw = false →
      dateFlagAt raw header j = ((tokensTrimmed raw).any fun pat =>
        containsPat (lowerStr (header.getD j "")) pat)) ∧
    classify "0,2" ["a", "b", "c"] = [true, false, true] := by
  refine ⟨?_, ?_, ?_, by decide⟩
  · simp [allNumbersWhitelist, List.all_eq_true]
  · intro h
    simp only [dateFlagAt, hall, hnone, h, if_true, if_false,
      Bool.false_eq_true, datesWhitelist]
    exact contains_sortStrings (tokensTrimmed raw) (toString j)
  · intro h
    simp [dateFlagAt, hall, hnone, h, datesWhitelist]

/-- Witness for `whitelist_indexset_mode`: with the whitelist `"0,2"` and a
3-column header, column `2` is flagged because `"2"` is in the token set. -/
theorem whitelist_indexset_mode_witness :
    dateFlagAt "0,2" ["a", "b", "c"] 2 = true := by
  rw [(whitelist_indexset_mode "0,2" ["a", "b", "c"] 2 (by decide)
    (by decide)).2.1 (by decide)]
  decide

/-- C6 (confirmed): `classify` with spec `"all"` yields an all-true vector
of header width for any header content, with `"none"` an all-false vector;
in PatternSet mode a column is flagged iff the lowercased header text
contains at least one whitelist token as a substring; and spec
`"date,time"` on `["OrderDate", "Amount", "DueTime"]` yields
`[true, false, true]`. -/
theorem classify_modes (raw : String) (header : List String) (j : Nat) :
    (lowerStr raw = "all" →
      classify raw header = List.replicate header.length true) ∧
    (lowerStr raw = "none" →
      classify raw header = List.replicate header.length false) ∧
    ((lowerStr raw == "all") = false → (lowerStr raw == "none") = false →
      allNumbersWhitelist raw = false →
      (dateFlagAt raw header j = true ↔
        ∃ pat ∈ tokensTrimmed raw,
          containsPat (lowerStr (header.getD j "")) pat = true)) ∧
    classify "date,time" ["OrderDate", "Amount", "DueTime"] =
      [true, false, true] := by
  refine ⟨?_, ?_, ?_, by decide⟩
  · intro h
    have hf : ∀ i ∈ List.range header.length,
        dateFlagAt raw header i = true := by
      intro i _
      simp [dateFlagAt, h]
    unfold classify
    rw [List.map_congr_left hf, List.map_const', List.length_range]
  · intro h
    have hne : ("none" == "all") = false := by decide
    have hf : ∀ i ∈ List.range header.length,
        dateFlagAt raw header i = false := by
      intro i _
      simp [dateFlagAt, h, hne]
    unfold classify
    rw [List.map_congr_left hf, List.map_const', List.length_range]
  · intro hall hnone h
    simp [dateFlagAt, hall, hnone, h, datesWhitelist, List.any_eq_true]

/-- Witness for `classify_modes`: spec `"all"` on a two-column header. -/
theorem classify_modes_witness :
    classify "all" ["Amount", "Qty"] = [true, true] :=
  (classify_modes "all" ["Amount", "Qty"] 0).1 (by decide)

/-- C5 (confirmed): a date-flagged float or datetime-serial cell with
positive fractional part renders as a date-time `YYYY-MM-DD HH:MM:SS`
against the 1899-12-30 epoch — serial 37145.354166666664 yields
`"2001-09-11 08:30:00"` — while an integral serial renders date-only —
serial 40729.0 yields `"2011-07-05"`; `Float` and `DateTime` cells are
transcoded identically, and the branch is decided by whether the
fractional part is greater than zero (`asDatetime` vs `asDate`). -/
theorem transcode_date_serials :
    transcodeCell (DataType.Float ⟨40729, 1⟩) true = "2011-07-05" ∧
    transcodeCell (DataType.Float ⟨37145354166666664, 1000000000000⟩) true =
      "2001-09-11 08:30:00" ∧
    transcodeCell (DataType.DateTime ⟨40729, 1⟩) true = "2011-07-05" ∧
    (∀ f : Frac, transcodeCell (DataType.DateTime f) true =
      transcodeCell (DataType.Float f) true) ∧
    (∀ f : Frac, transcodeCell (DataType.Float f) true =
      if Frac.fractPos f then
        (asDatetime f).getD
          ("ERROR: Cannot convert " ++ Frac.repr f ++ " to datetime")
      else
        (asDate f).getD
          ("ERROR: Cannot convert " ++ Frac.repr f ++ " to date")) :=
  ⟨by decide, by decide, by decide, fun _ => rfl, fun _ => rfl⟩

/-- C7 (confirmed): when the calendar decoding of a date-flagged serial
fails, the transcoder emits the in-band `"ERROR: Cannot convert <f> to
datetime"` / `"... to date"` field (fractional / integral case), and the
row loop still assembles and writes exactly one record per input row, so
a per-cell decode failure never drops a row. -/
theorem cell_decode_error_in_band (f : Frac)
    (hfail : dayRangeOk (Frac.trunc f - epochOffsetDays) = false) :
    (Frac.fractPos f = true → transcodeCell (DataType.Float f) true =
      "ERROR: Cannot convert " ++ Frac.repr f ++ " to datetime") ∧
    (Frac.fractPos f = false → transcodeCell (DataType.Float f) true =
      "ERROR: Cannot convert " ++ Frac.repr f ++ " to date") ∧
    (∀ (raw : String) (doTrim : Bool) (rows : List (List DataType)),
      (processRows raw doTrim rows).length = rows.length) := by
  refine ⟨?_, ?_, ?_⟩
  · intro hf
    simp [transcodeCell, hf, asDatetime, hfail]
  · intro hf
    simp [transcodeCell, hf, asDate, hfail]
  · intro raw doTrim rows
    cases rows with
    | nil => rfl
    | cons h t => simp [processRows]

/-- Witness for `cell_decode_error_in_band`: the integral serial
400000000 is out of the representable range and transcodes to the in-band
error field. -/
theorem cell_decode_error_in_band_witness :
    transcodeCell (DataType.Float ⟨400000000, 1⟩) true =
      "ERROR: Cannot convert 400000000 to date" := by
  rw [(cell_decode_error_in_band ⟨400000000, 1⟩ (by decide)).2.1 (by decide)]
  decide

/-- C8 (confirmed): with trim enabled each field is trimmed of leading and
trailing whitespace and every embedded line-break character (`'\n'`, the
character the source replaces) becomes a single space, so `" a\nb "`
becomes `"a b"`; with trim disabled the transcoded fields are written
unchanged. -/
theorem assemble_trim_flatten :
    assembleRecord [" a\nb "] true = ["a b"] ∧
    (∀ fields : List String, assembleRecord fields false = fields) ∧
    (∀ s : String, flattenLF s =
      String.mk (s.data.map fun c => if c == '\n' then ' ' else c)) ∧
    (∀ fields : List String,
      assembleRecord fields true =
        fields.map fun f => flattenLF (trimStr f)) := by
  refine ⟨by decide, fun fields => rfl, ?_, fun fields => rfl⟩
  intro s
  unfold flattenLF
  split
  · rfl
  · next hnc =>
    have hmap : s.data.map (fun c => if c == '\n' then ' ' else c)
        = s.data.map id := by
      apply List.map_congr_left
      intro c hc
      have : ¬ c = '\n' := fun he =>
        hnc (List.elem_iff.mpr (he ▸ hc))
      simp [this]
    rw [hmap, List.map_id]

/-- C10 (confirmed): the summary prints `count - 1` in wrapping `u32`
arithmetic, where `count` is the number of written rows; when the chosen
sheet yields zero rows (`processRows` of `[]` writes nothing) the
subtraction underflows to `4294967295` instead of reporting zero, and it
equals the data-row count only under the precondition of at least one
written row. -/
theorem summary_count_underflow :
    exportedRowCount (processRows "none" false []).length = 4294967295 ∧
    exportedRowCount 0 ≠ 0 ∧
    (∀ n : Nat, 1 ≤ n → n ≤ 4294967295 → exportedRowCount n = n - 1) := by
  refine ⟨by decide, by decide, ?_⟩
  intro n h1 h2
  unfold exportedRowCount wrapU32
  have h : n % 4294967296 = n := Nat.mod_eq_of_lt (by omega)
  rw [h]
  omega

/-- Witness for `summary_count_underflow`: three written rows (a header
and two data rows) report two exported rows. -/
theorem summary_count_underflow_witness : exportedRowCount 3 = 2 :=
  summary_count_underflow.2.2 3 (by decide) (by decide)

end QsvExcel
